import Mathlib

/-!
Verification of the classification-result smoothing engine of
`megadetector/postprocessing/classification_postprocessing.py`.

Detections, classifications and the category tally are embedded as plain
functional data; the in-place mutation of each detection's leading
classification category id is modelled by returning an updated detection
list together with the change counters the Python code accumulates.
Confidence values are modelled as rationals (the code only compares them
against thresholds); the integer-valued tunables are modelled as `Int`
(Python integers).
-/

/-- One entry of a detection's `classifications` list: a category id paired
with a classification confidence. -/
structure Classification where
  category : String
  conf : ℚ
deriving DecidableEq, Repr

/-- One detection: a detection confidence and an optional `classifications`
list (`none` models the absence of the `classifications` field). -/
structure Detection where
  conf : ℚ
  classifications : Option (List Classification)
deriving DecidableEq, Repr

/-- The tunables of `ClassificationSmoothingOptions` that
`_smooth_classifications_for_list_of_detections` reads, plus
`propagate_classifications_through_taxonomy`, which the options class
declares (and documents as enabling pass 3) but which the smoothing code
never consults. -/
structure ClassificationSmoothingOptions where
  min_detections_to_overwrite_secondary : Int
  max_detections_nondominant_class : Int
  min_detections_to_overwrite_other : Int
  classification_confidence_threshold : ℚ
  detection_confidence_threshold : ℚ
  propagate_classifications_through_taxonomy : Bool
deriving DecidableEq, Repr

/-- The summary dict returned by
`_smooth_classifications_for_list_of_detections` when it does not return
the `None` sentinel. -/
structure SmoothingSummary where
  n_other_classifications_changed_this_image : Nat
  n_detections_flipped_this_image : Nat
  n_taxonomic_changes_this_image : Nat
deriving DecidableEq, Repr

/-- `category_to_count[cat] += 1` on an association list that keeps
first-encounter key order (the behavior of `defaultdict(int)` under
insertion). -/
def incrCount (cat : String) : List (String × Nat) → List (String × Nat)
  | [] => [(cat, 1)]
  | (c, n) :: rest =>
      if c = cat then (c, n + 1) :: rest else (c, n) :: incrCount cat rest

/-- Insert one entry into a list already sorted by descending count,
placing it after every entry with a greater-or-equal count (so that a
stable descending order results when entries are inserted left to
right). -/
def insertCountDesc (x : String × Nat) : List (String × Nat) → List (String × Nat)
  | [] => [x]
  | y :: ys => if x.2 > y.2 then x :: y :: ys else y :: insertCountDesc x ys

/-- `sorted(items, key=count, reverse=True)`: stable descending sort by
count, ties keeping encounter order. -/
def sortByCountDesc (l : List (String × Nat)) : List (String × Nat) :=
  l.foldl (fun acc x => insertCountDesc x acc) []

/-- Dictionary lookup `category_to_count[cat]` (0 when absent; the Python
code only looks up keys that are present). -/
def countOf (t : List (String × Nat)) (cat : String) : Nat :=
  (t.lookup cat).getD 0

/-- The per-detection accumulation step of `_count_detections_by_category`:
count a detection iff the `classifications` field is present, the detection
confidence is above threshold, and the (single) classification's confidence
is above threshold. -/
def countStep (options : ClassificationSmoothingOptions)
    (acc : List (String × Nat)) (det : Detection) : List (String × Nat) :=
  match det.classifications with
  | some (c :: _) =>
      if det.conf ≥ options.detection_confidence_threshold then
        if c.conf ≥ options.classification_confidence_threshold then
          incrCount c.category acc
        else acc
      else acc
  | _ => acc

/-- `_count_detections_by_category`: tally qualifying detections per
category id, sorted in descending order by count (stable, so ties keep
encounter order). -/
def _count_detections_by_category (detections : List Detection)
    (options : ClassificationSmoothingOptions) : List (String × Nat) :=
  sortByCountDesc (detections.foldl (countStep options) [])

/-- Lines 292-304 of the smoother: take `keys[0]` of the tally as the
dominant category together with its count, except that when `keys[0]` is an
"other" category, `keys[1]` is not, and their counts are exactly tied, the
two ranks are swapped. -/
def dominantAndMax (t : List (String × Nat)) (other_category_ids : List String) :
    String × Nat :=
  match t with
  | (a, ca) :: (b, cb) :: _ =>
      if a ∈ other_category_ids ∧ b ∉ other_category_ids ∧ ca = cb then (b, cb)
      else (a, ca)
  | [(a, ca)] => (a, ca)
  | [] => ("", 0)

/-- The re-count step of passes 2 and 3: `keys[0]` of the tally plus its
count, with no tie-break. -/
def topAndMax (t : List (String × Nat)) : String × Nat :=
  match t with
  | (a, ca) :: _ => (a, ca)
  | [] => ("", 0)

/-- Pass 1, per detection: relabel a qualifying "other"-category
classification to the dominant category, counting the change. -/
def pass1Det (options : ClassificationSmoothingOptions)
    (other_category_ids : List String) (most_common_category : String)
    (det : Detection) : Detection × Nat :=
  match det.classifications with
  | some (c :: rest) =>
      if det.conf ≥ options.detection_confidence_threshold then
        if c.conf ≥ options.classification_confidence_threshold ∧
            c.category ∈ other_category_ids then
          let c2 := { c with category := most_common_category }
          ({ det with classifications := some (c2 :: rest) }, 1)
        else (det, 0)
      else (det, 0)
  | _ => (det, 0)

/-- Pass 1 ("other override", lines 311-336): if the dominant count reaches
`min_detections_to_overwrite_other` and the dominant category is not an
"other" category, relabel every qualifying "other" classification to the
dominant category; otherwise change nothing. -/
def pass1 (detections : List Detection) (options : ClassificationSmoothingOptions)
    (other_category_ids : List String) (most_common_category : String)
    (max_count : Nat) : List Detection × Nat :=
  if (max_count : ℤ) ≥ options.min_detections_to_overwrite_other ∧
      most_common_category ∉ other_category_ids then
    (detections.map
       (fun det => (pass1Det options other_category_ids most_common_category det).1),
     (detections.map
       (fun det => (pass1Det options other_category_ids most_common_category det).2)).sum)
  else (detections, 0)

/-- Pass 2, per detection: flip a qualifying classification to the dominant
category when its category differs from the dominant one, the dominant
count strictly exceeds its category's count and
`min_detections_to_overwrite_secondary`, and its category's count is at
most `max_detections_nondominant_class`. -/
def pass2Det (options : ClassificationSmoothingOptions)
    (category_to_count : List (String × Nat)) (most_common_category : String)
    (max_count : Nat) (det : Detection) : Detection × Nat :=
  match det.classifications with
  | some (c :: rest) =>
      if det.conf ≥ options.detection_confidence_threshold then
        if c.conf ≥ options.classification_confidence_threshold ∧
            c.category ≠ most_common_category ∧
            max_count > countOf category_to_count c.category ∧
            (max_count : ℤ) > options.min_detections_to_overwrite_secondary ∧
            (countOf category_to_count c.category : ℤ) ≤
              options.max_detections_nondominant_class then
          let c2 := { c with category := most_common_category }
          ({ det with classifications := some (c2 :: rest) }, 1)
        else (det, 0)
      else (det, 0)
  | _ => (det, 0)

/-- Pass 2 ("dominant flip", lines 351-378): skipped entirely when the
dominant category is an "other" category. -/
def pass2 (detections : List Detection) (options : ClassificationSmoothingOptions)
    (other_category_ids : List String) (category_to_count : List (String × Nat))
    (most_common_category : String) (max_count : Nat) : List Detection × Nat :=
  if most_common_category ∉ other_category_ids then
    (detections.map
       (fun det => (pass2Det options category_to_count most_common_category max_count det).1),
     (detections.map
       (fun det => (pass2Det options category_to_count most_common_category max_count det).2)).sum)
  else (detections, 0)

/-- `leadsWith a b` : does the character list `b` start with `a`? -/
def leadsWith : List Char → List Char → Bool
  | [], _ => true
  | _ :: _, [] => false
  | a :: as, b :: bs => (a == b) && leadsWith as bs

/-- Occurrence of `sub` anywhere inside `s` (character lists). -/
def substrAux (sub : List Char) : List Char → Bool
  | [] => sub.isEmpty
  | c :: rest => leadsWith sub (c :: rest) || substrAux sub rest

/-- Python's substring test `sub in s` for strings. -/
def isSubstringOf (sub s : String) : Bool :=
  substrAux sub.toList s.toList

/-- The body of pass 3's candidate-child loop (lines 421-444): skip the
detection's own (pre-pass-3) category, skip candidates with an empty
cleaned description, skip non-children (substring test against the
detection's pre-pass-3 description), and relabel — updating the running
category and change count — when the candidate's frozen tally count
strictly exceeds the detection's pre-pass-3 category count. -/
def pass3Step (category_to_count : List (String × Nat))
    (cdc : List (String × String)) (cat0 desc0 : String) (count0 : Nat)
    (acc : String × Nat) (k : String) : String × Nat :=
  if k = cat0 then acc
  else
    if (cdc.lookup k).getD "" = "" then acc
    else
      if isSubstringOf desc0 ((cdc.lookup k).getD "") then
        if countOf category_to_count k > count0 then (k, acc.2 + 1) else acc
      else acc

/-- Pass 3, per detection: for a qualifying detection, scan every tallied
category as a candidate child, with the detection's category id, cleaned
description and tally count frozen before the scan. -/
def pass3Det (options : ClassificationSmoothingOptions)
    (category_to_count : List (String × Nat)) (cdc : List (String × String))
    (det : Detection) : Detection × Nat :=
  match det.classifications with
  | some (c :: rest) =>
      if det.conf ≥ options.detection_confidence_threshold then
        if c.conf < options.classification_confidence_threshold then (det, 0)
        else
          let r := (category_to_count.map Prod.fst).foldl
            (pass3Step category_to_count cdc c.category
              ((cdc.lookup c.category).getD "")
              (countOf category_to_count c.category))
            (c.category, 0)
          let c2 := { c with category := r.1 }
          ({ det with classifications := some (c2 :: rest) }, r.2)
      else (det, 0)
  | _ => (det, 0)

/-- Pass 3 ("taxonomic collapse", lines 395-452): runs only when cleaned
classification descriptions are available and non-empty and the tally has
more than one category. -/
def pass3 (detections : List Detection) (options : ClassificationSmoothingOptions)
    (category_to_count : List (String × Nat))
    (classification_descriptions_clean : Option (List (String × String))) :
    List Detection × Nat :=
  match classification_descriptions_clean with
  | some cdc =>
      if 0 < cdc.length ∧ 1 < category_to_count.length then
        (detections.map (fun det => (pass3Det options category_to_count cdc det).1),
         (detections.map (fun det => (pass3Det options category_to_count cdc det).2)).sum)
      else (detections, 0)
  | none => (detections, 0)

/-- `_smooth_classifications_for_list_of_detections`: the three-pass Group
Smoother over one smoothing unit.  Returns the updated detection list
together with `None` (no qualifying category distribution) or the summary
dict of the three change counts. -/
def _smooth_classifications_for_list_of_detections
    (detections : List Detection) (options : ClassificationSmoothingOptions)
    (other_category_ids : List String)
    (classification_descriptions_clean : Option (List (String × String))) :
    List Detection × Option SmoothingSummary :=
  let category_to_count := _count_detections_by_category detections options
  if category_to_count.length ≤ 1 then
    (detections, none)
  else
    let dm := dominantAndMax category_to_count other_category_ids
    let p1 := pass1 detections options other_category_ids dm.1 dm.2
    let category_to_count1 := _count_detections_by_category p1.1 options
    let tm1 := topAndMax category_to_count1
    let p2 := pass2 p1.1 options other_category_ids category_to_count1 tm1.1 tm1.2
    let category_to_count2 := _count_detections_by_category p2.1 options
    let p3 := pass3 p2.1 options category_to_count2 classification_descriptions_clean
    (p3.1, some ⟨p1.2, p2.2, p3.2⟩)

/-- The fatal error of the normalization step (a failed `assert` in the
Python code; the spec's `ContractViolation`). -/
inductive SmoothingError where
  | contractViolation
deriving DecidableEq, Repr

/-- Modelled from the spec: `is_list_sorted(values, reverse=True)` lives in
`megadetector/utils/ct_utils.py`, which is not part of the sources here.
Per the spec it checks that the list is "already sorted by descending
confidence": each element is greater than or equal to the next. -/
def is_list_sorted_reverse : List ℚ → Bool
  | [] => true
  | [_] => true
  | a :: b :: rest => decide (a ≥ b) && is_list_sorted_reverse (b :: rest)

/-- The per-detection normalization of `_prepare_results_for_smoothing`
(lines 207-217): drop an empty `classifications` field, otherwise assert
the entries are sorted by descending confidence and keep only the first. -/
def normalizeDetection (det : Detection) : Except SmoothingError Detection :=
  match det.classifications with
  | none => .ok det
  | some [] => .ok { det with classifications := none }
  | some (c :: rest) =>
      if is_list_sorted_reverse ((c :: rest).map Classification.conf) then
        .ok { det with classifications := some [c] }
      else .error .contractViolation

/-- Normalization over a detection list: the first `ContractViolation`
aborts the whole run. -/
def normalizeDetections : List Detection → Except SmoothingError (List Detection)
  | [] => .ok []
  | det :: rest => do
      let det2 ← normalizeDetection det
      let rest2 ← normalizeDetections rest
      return det2 :: rest2

/-- A detection with detection confidence 1 carrying a single
classification of confidence 1 in category `cat`. -/
def constDet (cat : String) : Detection := ⟨1, some [⟨cat, 1⟩]⟩

/-- Configuration for the idempotence counterexample:
`min_detections_to_overwrite_secondary = 0`,
`max_detections_nondominant_class = 1`,
`min_detections_to_overwrite_other = 6`, both confidence thresholds 0. -/
def idemOpts : ClassificationSmoothingOptions := ⟨0, 1, 6, 0, 0, true⟩

/-- Smoothing unit for the idempotence counterexample: five detections of
category A, four of the "other" category O, one of category B. -/
def idemDets : List Detection :=
  [constDet "A", constDet "A", constDet "A", constDet "A", constDet "A",
   constDet "O", constDet "O", constDet "O", constDet "O", constDet "B"]

/-- Configuration for the pass-3 repeated-relabel example: pass 2 is
disabled by `min_detections_to_overwrite_secondary = 100`. -/
def taxOpts : ClassificationSmoothingOptions := ⟨100, 1, 2, 0, 0, true⟩

/-- Smoothing unit for the pass-3 repeated-relabel example: three
detections of category C, two of B, one of A. -/
def taxDets : List Detection :=
  [constDet "C", constDet "C", constDet "C", constDet "B", constDet "B", constDet "A"]

/-- Cleaned taxonomy descriptions making both B and C taxonomic children
of A (and B, C unrelated to each other). -/
def taxCdc : List (String × String) := [("A", "x"), ("B", "x;b"), ("C", "x;c")]

/-- The pass-3 relabel condition for a candidate child `k` of a detection
whose pre-pass-3 category is `cat0`: distinct category, non-empty cleaned
description, substring (ancestor) relation, and a strictly larger frozen
tally count. -/
def pass3Qualifies (t : List (String × Nat)) (cdc : List (String × String))
    (cat0 : String) (k : String) : Bool :=
  decide (k ≠ cat0 ∧ (cdc.lookup k).getD "" ≠ "" ∧
    isSubstringOf ((cdc.lookup cat0).getD "") ((cdc.lookup k).getD "") = true ∧
    countOf t cat0 < countOf t k)

/-- The tallied categories, in tally order, that trigger a relabel of a
detection whose pre-pass-3 category is `cat0`. -/
def qualifyingChildren (t : List (String × Nat)) (cdc : List (String × String))
    (cat0 : String) : List String :=
  (t.map Prod.fst).filter (pass3Qualifies t cdc cat0)

def invisibleToSmoothing (options : ClassificationSmoothingOptions) (det : Detection) : Prop :=
  det.classifications = none ∨
  det.conf < options.detection_confidence_threshold ∨
  ∃ c rest, det.classifications = some (c :: rest) ∧
    c.conf < options.classification_confidence_threshold

def detShape (d : Detection) : ℚ × Option (List ℚ) :=
  (d.conf, d.classifications.map (fun l => l.map Classification.conf))

/-- Claim C1 (counterexample): the Group Smoother is not idempotent.  On
the unit 5×A, 4×O ("other"), 1×B with
`min_detections_to_overwrite_other = 6`,
`min_detections_to_overwrite_secondary = 0` and
`max_detections_nondominant_class = 1`, the first run's pass 1 is skipped
(dominant count 5 < 6) and its pass 2 flips only the B detection (summary
(0,1,0)), raising the dominant count to 6; the second run's pass 1 then
fires and relabels the four "other" detections (summary (4,0,0)), changing
category ids the first run had left. -/
theorem smooth_twice_changes_again :
    (_smooth_classifications_for_list_of_detections
        (_smooth_classifications_for_list_of_detections idemDets idemOpts ["O"] none).1
        idemOpts ["O"] none).2 = some ⟨4, 0, 0⟩ ∧
    (_smooth_classifications_for_list_of_detections
        (_smooth_classifications_for_list_of_detections idemDets idemOpts ["O"] none).1
        idemOpts ["O"] none).1 ≠
      (_smooth_classifications_for_list_of_detections idemDets idemOpts ["O"] none).1 := by
  decide

/-- Claim C9: within pass 3 a single detection can be relabeled more than
once.  On the unit 3×C, 2×B, 1×A where B and C are both children of A, the
tally iterates C (count 3) then B (count 2) then A (count 1); the single A
detection is first relabeled to C and then again to B, so the taxonomic
change count is 2 while only one detection differs from the input, and the
detection ends in B, the last qualifying child in tally order. -/
theorem pass3_repeated_relabel_example :
    (_smooth_classifications_for_list_of_detections taxDets taxOpts [] (some taxCdc)).2 =
      some ⟨0, 0, 2⟩ ∧
    (_smooth_classifications_for_list_of_detections taxDets taxOpts [] (some taxCdc)).1 =
      [constDet "C", constDet "C", constDet "C", constDet "B", constDet "B", constDet "B"] ∧
    ((taxDets.zip
        (_smooth_classifications_for_list_of_detections taxDets taxOpts [] (some taxCdc)).1).countP
      (fun p => decide (p.1 ≠ p.2))) = 1 ∧
    (_count_detections_by_category taxDets taxOpts).map Prod.fst = ["C", "B", "A"] := by
  decide

/-- Claim C6: the Group Smoother returns the `None` sentinel exactly when
the initial tally of its detection list has fewer than 2 categories; in
that case it returns before modifying any detection, and otherwise it
returns a summary of the three change counts. -/
theorem sentinel_iff_fewer_than_two_categories
    (detections : List Detection) (options : ClassificationSmoothingOptions)
    (other_category_ids : List String)
    (classification_descriptions_clean : Option (List (String × String))) :
    ((_smooth_classifications_for_list_of_detections detections options
        other_category_ids classification_descriptions_clean).2 = none ↔
      (_count_detections_by_category detections options).length ≤ 1) ∧
    ((_smooth_classifications_for_list_of_detections detections options
        other_category_ids classification_descriptions_clean).2 = none →
      (_smooth_classifications_for_list_of_detections detections options
        other_category_ids classification_descriptions_clean).1 = detections) ∧
    (1 < (_count_detections_by_category detections options).length →
      ∃ s, (_smooth_classifications_for_list_of_detections detections options
        other_category_ids classification_descriptions_clean).2 = some s) := by
  by_cases h : (_count_detections_by_category detections options).length ≤ 1 <;>
    simp [_smooth_classifications_for_list_of_detections, h]

/-- Witness for `sentinel_iff_fewer_than_two_categories`: on the empty
unit the sentinel is returned with the list untouched, and on the
idempotence-example unit (three categories) a summary is returned. -/
theorem sentinel_iff_fewer_than_two_categories_witness :
    (_smooth_classifications_for_list_of_detections [] idemOpts [] none).1 = [] ∧
    ∃ s, (_smooth_classifications_for_list_of_detections idemDets idemOpts ["O"] none).2 =
      some s := by
  refine ⟨(sentinel_iff_fewer_than_two_categories [] idemOpts [] none).2.1
    ((sentinel_iff_fewer_than_two_categories [] idemOpts [] none).1.mpr (by decide)), ?_⟩
  exact (sentinel_iff_fewer_than_two_categories idemDets idemOpts ["O"] none).2.2 (by decide)

/-- Claim C2: in pass 2, if the dominant category (top of the re-tally
after pass 1) is an "other" category, the pass changes nothing; otherwise
a qualifying detection whose category differs from the dominant one is
relabeled to the dominant category exactly when the dominant count
strictly exceeds its category's count, the dominant count strictly exceeds
`min_detections_to_overwrite_secondary`, and its category's count is at
most `max_detections_nondominant_class`; in particular a category whose
count exceeds `max_detections_nondominant_class` is never flipped. -/
theorem pass2_dominant_flip_characterization
    (options : ClassificationSmoothingOptions) (other_category_ids : List String)
    (dets1 : List Detection) (t : List (String × Nat)) (mc : String) (maxc : Nat)
    (ht : t = _count_detections_by_category dets1 options)
    (hmc : mc = (topAndMax t).1) (hmax : maxc = (topAndMax t).2)
    (dconf cconf : ℚ) (cat : String) (rest : List Classification)
    (hd : dconf ≥ options.detection_confidence_threshold)
    (hc : cconf ≥ options.classification_confidence_threshold)
    (hne : cat ≠ mc) :
    (mc ∈ other_category_ids →
      pass2 dets1 options other_category_ids t mc maxc = (dets1, 0)) ∧
    (pass2Det options t mc maxc ⟨dconf, some (⟨cat, cconf⟩ :: rest)⟩ =
        (⟨dconf, some (⟨mc, cconf⟩ :: rest)⟩, 1) ↔
      (maxc > countOf t cat ∧
       (maxc : ℤ) > options.min_detections_to_overwrite_secondary ∧
       (countOf t cat : ℤ) ≤ options.max_detections_nondominant_class)) ∧
    (¬ (maxc > countOf t cat ∧
        (maxc : ℤ) > options.min_detections_to_overwrite_secondary ∧
        (countOf t cat : ℤ) ≤ options.max_detections_nondominant_class) →
      pass2Det options t mc maxc ⟨dconf, some (⟨cat, cconf⟩ :: rest)⟩ =
        (⟨dconf, some (⟨cat, cconf⟩ :: rest)⟩, 0)) ∧
    ((countOf t cat : ℤ) > options.max_detections_nondominant_class →
      pass2Det options t mc maxc ⟨dconf, some (⟨cat, cconf⟩ :: rest)⟩ =
        (⟨dconf, some (⟨cat, cconf⟩ :: rest)⟩, 0)) := by
  refine ⟨fun hmem => by simp [pass2, hmem], ?_, ?_, ?_⟩
  · simp only [pass2Det, if_pos hd]
    split_ifs with h
    · obtain ⟨-, -, h3, h4, h5⟩ := h
      simp [h3, h4, h5, hne]
    · constructor
      · intro heq
        exact absurd (congrArg Prod.snd heq) (by simp)
      · intro hcond
        exact absurd ⟨hc, hne, hcond.1, hcond.2.1, hcond.2.2⟩ h
  · intro hcond
    simp only [pass2Det, if_pos hd]
    rw [if_neg]
    intro h
    exact hcond ⟨h.2.2.1, h.2.2.2.1, h.2.2.2.2⟩
  · intro hgt
    simp only [pass2Det, if_pos hd]
    rw [if_neg]
    intro h
    exact absurd h.2.2.2.2 (by omega)

/-- Witness for `pass2_dominant_flip_characterization`: on the unit
A, A, B the dominant category A (count 2) flips the single B detection. -/
theorem pass2_dominant_flip_characterization_witness :
    pass2Det idemOpts [("A", 2), ("B", 1)] "A" 2 ⟨1, some [⟨"B", 1⟩]⟩ =
      (⟨1, some [⟨"A", 1⟩]⟩, 1) :=
  (pass2_dominant_flip_characterization idemOpts ["O"]
    [constDet "A", constDet "A", constDet "B"] [("A", 2), ("B", 1)] "A" 2
    (by decide) (by decide) (by decide) 1 1 "B" [] (by decide) (by decide)
    (by decide)).2.1.mpr (by decide)

/-- Claim C3: pass 1's tie-break swaps an "other" top category with a
second-ranked non-"other" category at exactly tied counts; when the
(possibly swapped) dominant category's count reaches
`min_detections_to_overwrite_other` and the dominant category is not
"other", every qualifying detection in an "other" category is relabeled to
the dominant category and every other detection is unchanged; under any
other condition pass 1 relabels nothing. -/
theorem pass1_other_override_characterization
    (options : ClassificationSmoothingOptions) (other_category_ids : List String) :
    (∀ (a b : String) (ca cb : Nat) (trest : List (String × Nat)),
      a ∈ other_category_ids → b ∉ other_category_ids → ca = cb →
      dominantAndMax ((a, ca) :: (b, cb) :: trest) other_category_ids = (b, cb)) ∧
    (∀ (detections : List Detection) (mc : String) (maxc : Nat),
      (maxc : ℤ) ≥ options.min_detections_to_overwrite_other → mc ∉ other_category_ids →
      (pass1 detections options other_category_ids mc maxc).1 =
        detections.map (fun det => (pass1Det options other_category_ids mc det).1)) ∧
    (∀ (dconf cconf : ℚ) (cat mc : String) (rest : List Classification),
      dconf ≥ options.detection_confidence_threshold →
      cconf ≥ options.classification_confidence_threshold → cat ∈ other_category_ids →
      pass1Det options other_category_ids mc ⟨dconf, some (⟨cat, cconf⟩ :: rest)⟩ =
        (⟨dconf, some (⟨mc, cconf⟩ :: rest)⟩, 1)) ∧
    (∀ (dconf cconf : ℚ) (cat mc : String) (rest : List Classification),
      cat ∉ other_category_ids →
      pass1Det options other_category_ids mc ⟨dconf, some (⟨cat, cconf⟩ :: rest)⟩ =
        (⟨dconf, some (⟨cat, cconf⟩ :: rest)⟩, 0)) ∧
    (∀ (detections : List Detection) (mc : String) (maxc : Nat),
      ¬ ((maxc : ℤ) ≥ options.min_detections_to_overwrite_other ∧
          mc ∉ other_category_ids) →
      pass1 detections options other_category_ids mc maxc = (detections, 0)) := by
  refine ⟨?_, ?_, ?_, ?_, ?_⟩
  · intro a b ca cb trest ha hb hcc
    simp [dominantAndMax, ha, hb, hcc]
  · intro dets mc maxc h1 h2
    simp [pass1, h1, h2]
  · intro dconf cconf cat mc rest hd hc hmem
    simp [pass1Det, if_pos hd, hc, hmem]
  · intro dconf cconf cat mc rest hmem
    simp only [pass1Det]
    split_ifs with h1 h2
    · exact absurd h2.2 hmem
    · rfl
    · rfl
  · intro dets mc maxc h
    simp [pass1, h]

/-- Witness for `pass1_other_override_characterization`: the tie-break
promotes "A" over the tied "other" category "O", and a qualifying "O"
detection is relabeled to the dominant category "A". -/
theorem pass1_other_override_characterization_witness :
    dominantAndMax [("O", 3), ("A", 3)] ["O"] = ("A", 3) ∧
    pass1Det idemOpts ["O"] "A" ⟨1, some [⟨"O", 1⟩]⟩ = (⟨1, some [⟨"A", 1⟩]⟩, 1) := by
  refine ⟨(pass1_other_override_characterization idemOpts ["O"]).1 "O" "A" 3 3 []
    (by decide) (by decide) rfl, ?_⟩
  exact (pass1_other_override_characterization idemOpts ["O"]).2.2.1 1 1 "O" "A" []
    (by decide) (by decide) (by decide)

/-- The candidate-child loop body relabels exactly under the
`pass3Qualifies` condition. -/
theorem pass3Step_eq (t : List (String × Nat)) (cdc : List (String × String))
    (cat0 : String) (count0 : Nat) (acc : String × Nat) (k : String) :
    pass3Step t cdc cat0 ((cdc.lookup cat0).getD "") count0 acc k =
      if (k ≠ cat0 ∧ (cdc.lookup k).getD "" ≠ "" ∧
          isSubstringOf ((cdc.lookup cat0).getD "") ((cdc.lookup k).getD "") = true ∧
          count0 < countOf t k)
      then (k, acc.2 + 1) else acc := by
  unfold pass3Step
  split_ifs <;> first | rfl | tauto

/-- The candidate-child loop of pass 3 leaves a detection at the last
qualifying child in tally order (or at its original category when none
qualifies), and counts one change per qualifying child. -/
theorem pass3_fold_eq (t : List (String × Nat)) (cdc : List (String × String))
    (cat0 : String) (ks : List String) :
    ∀ (cur : String) (n : Nat),
      ks.foldl (pass3Step t cdc cat0 ((cdc.lookup cat0).getD "") (countOf t cat0)) (cur, n) =
        ((ks.filter (pass3Qualifies t cdc cat0)).getLastD cur,
         n + (ks.filter (pass3Qualifies t cdc cat0)).length) := by
  induction ks with
  | nil => intro cur n; simp
  | cons k ks ih =>
      intro cur n
      rw [List.foldl_cons, pass3Step_eq, List.filter_cons]
      by_cases h : (k ≠ cat0 ∧ (cdc.lookup k).getD "" ≠ "" ∧
          isSubstringOf ((cdc.lookup cat0).getD "") ((cdc.lookup k).getD "") = true ∧
          countOf t cat0 < countOf t k)
      · have hb : pass3Qualifies t cdc cat0 k = true := decide_eq_true h
        rw [if_pos h, hb, if_pos rfl, ih]
        simp only [List.getLastD_cons, List.length_cons, Prod.mk.injEq, true_and]
        omega
      · have hb : pass3Qualifies t cdc cat0 k = false := decide_eq_false h
        rw [if_neg h, hb]
        simp only [Bool.false_eq_true, if_false, ih]

/-- Claim C4: pass 3 (which runs only when cleaned taxonomy descriptions
are available and the tally has more than one category) relabels a
qualifying detection to a candidate category exactly when the candidate's
cleaned description contains the detection's category's cleaned
description as a substring, is non-empty, and the candidate's count in the
tally frozen before the pass strictly exceeds the detection's category's
count; with no qualifying candidate the detection is unchanged. -/
theorem pass3_taxonomic_collapse_characterization
    (options : ClassificationSmoothingOptions) (t : List (String × Nat))
    (cdc : List (String × String)) (dconf cconf : ℚ) (cat0 : String)
    (rest : List Classification)
    (hd : dconf ≥ options.detection_confidence_threshold)
    (hc : cconf ≥ options.classification_confidence_threshold) :
    (pass3Det options t cdc ⟨dconf, some (⟨cat0, cconf⟩ :: rest)⟩ =
      (⟨dconf, some (⟨(qualifyingChildren t cdc cat0).getLastD cat0, cconf⟩ :: rest)⟩,
       (qualifyingChildren t cdc cat0).length)) ∧
    (∀ k, k ∈ qualifyingChildren t cdc cat0 ↔
      (k ∈ t.map Prod.fst ∧ k ≠ cat0 ∧ (cdc.lookup k).getD "" ≠ "" ∧
       isSubstringOf ((cdc.lookup cat0).getD "") ((cdc.lookup k).getD "") = true ∧
       countOf t cat0 < countOf t k)) ∧
    (qualifyingChildren t cdc cat0 = [] →
      pass3Det options t cdc ⟨dconf, some (⟨cat0, cconf⟩ :: rest)⟩ =
        (⟨dconf, some (⟨cat0, cconf⟩ :: rest)⟩, 0)) ∧
    (∀ (detections : List Detection), pass3 detections options t none = (detections, 0)) ∧
    (∀ (detections : List Detection) (cdc2 : List (String × String)),
      ¬ (0 < cdc2.length ∧ 1 < t.length) →
      pass3 detections options t (some cdc2) = (detections, 0)) := by
  have hmain : pass3Det options t cdc ⟨dconf, some (⟨cat0, cconf⟩ :: rest)⟩ =
      (⟨dconf, some (⟨(qualifyingChildren t cdc cat0).getLastD cat0, cconf⟩ :: rest)⟩,
       (qualifyingChildren t cdc cat0).length) := by
    simp only [pass3Det, if_pos hd, if_neg (not_lt.mpr hc), pass3_fold_eq, qualifyingChildren]
    simp
  refine ⟨hmain, ?_, ?_, ?_, ?_⟩
  · intro k
    simp [qualifyingChildren, List.mem_filter, pass3Qualifies]
  · intro hnil
    rw [hmain, hnil]
    rfl
  · intro dets
    rfl
  · intro dets cdc2 h
    simp [pass3, h]

/-- Witness for `pass3_taxonomic_collapse_characterization`: on the frozen
tally C:3, B:2, A:1 with B and C children of A, the A detection is
relabeled twice and ends at B. -/
theorem pass3_taxonomic_collapse_characterization_witness :
    pass3Det taxOpts [("C", 3), ("B", 2), ("A", 1)] taxCdc ⟨1, some [⟨"A", 1⟩]⟩ =
      (⟨1, some [⟨"B", 1⟩]⟩, 2) := by
  have h := (pass3_taxonomic_collapse_characterization taxOpts [("C", 3), ("B", 2), ("A", 1)]
    taxCdc 1 1 "A" [] (by decide) (by decide)).1
  exact h.trans (by decide)

/-- An invisible detection contributes nothing to the tally accumulator. -/
theorem countStep_invisible (options : ClassificationSmoothingOptions)
    (acc : List (String × Nat)) (det : Detection)
    (h : invisibleToSmoothing options det) : countStep options acc det = acc := by
  rcases det with ⟨dconf, cls⟩
  rcases cls with _ | (_ | ⟨c, r⟩)
  · rfl
  · rfl
  rcases h with h | h | ⟨c', rest', hcls, hlt⟩
  · exact absurd h (by simp)
  · simp only at h
    simp only [countStep]
    rw [if_neg (not_le.mpr h)]
  · simp only [Option.some.injEq, List.cons.injEq] at hcls
    obtain ⟨h1, h2⟩ := hcls
    subst h1 h2
    simp only [countStep]
    split_ifs with hA hB
    · exact absurd hB (not_le.mpr hlt)
    · rfl
    · rfl

/-- Pass 1 leaves an invisible detection untouched and uncounted. -/
theorem pass1Det_invisible (options : ClassificationSmoothingOptions)
    (other_category_ids : List String) (mc : String) (det : Detection)
    (h : invisibleToSmoothing options det) :
    pass1Det options other_category_ids mc det = (det, 0) := by
  rcases det with ⟨dconf, cls⟩
  rcases cls with _ | (_ | ⟨c, r⟩)
  · rfl
  · rfl
  rcases h with h | h | ⟨c', rest', hcls, hlt⟩
  · exact absurd h (by simp)
  · simp only at h
    simp only [pass1Det]
    rw [if_neg (not_le.mpr h)]
  · simp only [Option.some.injEq, List.cons.injEq] at hcls
    obtain ⟨h1, h2⟩ := hcls
    subst h1 h2
    simp only [pass1Det]
    split_ifs with hA hB
    · exact absurd hB.1 (not_le.mpr hlt)
    · rfl
    · rfl

/-- Pass 2 leaves an invisible detection untouched and uncounted. -/
theorem pass2Det_invisible (options : ClassificationSmoothingOptions)
    (t : List (String × Nat)) (mc : String) (maxc : Nat) (det : Detection)
    (h : invisibleToSmoothing options det) :
    pass2Det options t mc maxc det = (det, 0) := by
  rcases det with ⟨dconf, cls⟩
  rcases cls with _ | (_ | ⟨c, r⟩)
  · rfl
  · rfl
  rcases h with h | h | ⟨c', rest', hcls, hlt⟩
  · exact absurd h (by simp)
  · simp only at h
    simp only [pass2Det]
    rw [if_neg (not_le.mpr h)]
  · simp only [Option.some.injEq, List.cons.injEq] at hcls
    obtain ⟨h1, h2⟩ := hcls
    subst h1 h2
    simp only [pass2Det]
    split_ifs with hA hB
    · exact absurd hB.1 (not_le.mpr hlt)
    · rfl
    · rfl

/-- Pass 3 leaves an invisible detection untouched and uncounted. -/
theorem pass3Det_invisible (options : ClassificationSmoothingOptions)
    (t : List (String × Nat)) (cdc : List (String × String)) (det : Detection)
    (h : invisibleToSmoothing options det) :
    pass3Det options t cdc det = (det, 0) := by
  rcases det with ⟨dconf, cls⟩
  rcases cls with _ | (_ | ⟨c, r⟩)
  · rfl
  · rfl
  rcases h with h | h | ⟨c', rest', hcls, hlt⟩
  · exact absurd h (by simp)
  · simp only at h
    simp only [pass3Det]
    rw [if_neg (not_le.mpr h)]
  · simp only [Option.some.injEq, List.cons.injEq] at hcls
    obtain ⟨h1, h2⟩ := hcls
    subst h1 h2
    simp only [pass3Det]
    split_ifs <;> rfl

/-- Mapping a change function that fixes `det` preserves `det` at its
position. -/
theorem map_fst_getElem_preserved {f : Detection → Detection × Nat} {det : Detection}
    (hf : f det = (det, 0)) (dets : List Detection) (i : Nat) (hi : dets[i]? = some det) :
    (dets.map (fun d => (f d).1))[i]? = some det := by
  rw [List.getElem?_map, hi]
  simp [hf]

/-- Pass 1 preserves an invisible detection at its position. -/
theorem pass1_invisible_preserved (options : ClassificationSmoothingOptions)
    (other_category_ids : List String) (mc : String) (maxc : Nat) (det : Detection)
    (h : invisibleToSmoothing options det) (dets : List Detection) (i : Nat)
    (hi : dets[i]? = some det) :
    ((pass1 dets options other_category_ids mc maxc).1)[i]? = some det := by
  unfold pass1
  split_ifs with hf
  · exact map_fst_getElem_preserved (pass1Det_invisible options other_category_ids mc det h)
      dets i hi
  · exact hi

/-- Pass 2 preserves an invisible detection at its position. -/
theorem pass2_invisible_preserved (options : ClassificationSmoothingOptions)
    (other_category_ids : List String) (t : List (String × Nat)) (mc : String)
    (maxc : Nat) (det : Detection) (h : invisibleToSmoothing options det)
    (dets : List Detection) (i : Nat) (hi : dets[i]? = some det) :
    ((pass2 dets options other_category_ids t mc maxc).1)[i]? = some det := by
  unfold pass2
  split_ifs with hf
  · exact hi
  · exact map_fst_getElem_preserved (pass2Det_invisible options t mc maxc det h) dets i hi

/-- Pass 3 preserves an invisible detection at its position. -/
theorem pass3_invisible_preserved (options : ClassificationSmoothingOptions)
    (t : List (String × Nat)) (cdcl : Option (List (String × String))) (det : Detection)
    (h : invisibleToSmoothing options det) (dets : List Detection) (i : Nat)
    (hi : dets[i]? = some det) :
    ((pass3 dets options t cdcl).1)[i]? = some det := by
  rcases cdcl with _ | cdc
  · exact hi
  · simp only [pass3]
    split_ifs with hf
    · exact map_fst_getElem_preserved (pass3Det_invisible options t cdc det h) dets i hi
    · exact hi

/-- Claim C5: a detection whose detection confidence is below
`detection_confidence_threshold`, whose classification confidence is below
`classification_confidence_threshold`, or which has no classification
entry, contributes nothing to any category tally, is left exactly as it is
by each of the three passes, and sits unchanged at its position after a
whole Group Smoother run. -/
theorem threshold_gating_invariant (options : ClassificationSmoothingOptions)
    (other_category_ids : List String) (det : Detection)
    (h : invisibleToSmoothing options det) :
    (∀ (acc : List (String × Nat)), countStep options acc det = acc) ∧
    (∀ (pre post : List Detection),
      _count_detections_by_category (pre ++ det :: post) options =
        _count_detections_by_category (pre ++ post) options) ∧
    (∀ (mc : String), pass1Det options other_category_ids mc det = (det, 0)) ∧
    (∀ (t : List (String × Nat)) (mc : String) (maxc : Nat),
      pass2Det options t mc maxc det = (det, 0)) ∧
    (∀ (t : List (String × Nat)) (cdc : List (String × String)),
      pass3Det options t cdc det = (det, 0)) ∧
    (∀ (dets : List Detection) (cdcl : Option (List (String × String))) (i : Nat),
      dets[i]? = some det →
      ((_smooth_classifications_for_list_of_detections dets options
          other_category_ids cdcl).1)[i]? = some det) := by
  refine ⟨fun acc => countStep_invisible options acc det h, ?_,
    fun mc => pass1Det_invisible options other_category_ids mc det h,
    fun t mc maxc => pass2Det_invisible options t mc maxc det h,
    fun t cdc => pass3Det_invisible options t cdc det h, ?_⟩
  · intro pre post
    unfold _count_detections_by_category
    rw [List.foldl_append, List.foldl_append, List.foldl_cons,
      countStep_invisible options _ det h]
  · intro dets cdcl i hi
    by_cases hlen : (_count_detections_by_category dets options).length ≤ 1
    · simp only [_smooth_classifications_for_list_of_detections, if_pos hlen]
      exact hi
    · simp only [_smooth_classifications_for_list_of_detections, if_neg hlen]
      exact pass3_invisible_preserved options _ cdcl det h _ i
        (pass2_invisible_preserved options other_category_ids _ _ _ det h _ i
          (pass1_invisible_preserved options other_category_ids _ _ det h dets i hi))


/-- Witness for `threshold_gating_invariant`: a detection without a
`classifications` field survives a full run unchanged at its position. -/
theorem threshold_gating_invariant_witness :
    ((_smooth_classifications_for_list_of_detections [⟨0, none⟩] idemOpts ["O"] none).1)[0]? =
      some ⟨0, none⟩ :=
  (threshold_gating_invariant idemOpts ["O"] ⟨0, none⟩ (Or.inl rfl)).2.2.2.2.2
    [⟨0, none⟩] none 0 rfl

/-- Pass 1 never changes a detection's shape. -/
theorem pass1Det_shape (options : ClassificationSmoothingOptions)
    (other_category_ids : List String) (mc : String) (det : Detection) :
    detShape (pass1Det options other_category_ids mc det).1 = detShape det := by
  rcases det with ⟨dconf, cls⟩
  rcases cls with _ | (_ | ⟨c, r⟩)
  · rfl
  · rfl
  · simp only [pass1Det]
    split_ifs <;> rfl

/-- Pass 2 never changes a detection's shape. -/
theorem pass2Det_shape (options : ClassificationSmoothingOptions)
    (t : List (String × Nat)) (mc : String) (maxc : Nat) (det : Detection) :
    detShape (pass2Det options t mc maxc det).1 = detShape det := by
  rcases det with ⟨dconf, cls⟩
  rcases cls with _ | (_ | ⟨c, r⟩)
  · rfl
  · rfl
  · simp only [pass2Det]
    split_ifs <;> rfl

/-- Pass 3 never changes a detection's shape. -/
theorem pass3Det_shape (options : ClassificationSmoothingOptions)
    (t : List (String × Nat)) (cdc : List (String × String)) (det : Detection) :
    detShape (pass3Det options t cdc det).1 = detShape det := by
  rcases det with ⟨dconf, cls⟩
  rcases cls with _ | (_ | ⟨c, r⟩)
  · rfl
  · rfl
  · simp only [pass3Det]
    split_ifs <;> rfl

/-- Pass 1 preserves the shapes of the whole list. -/
theorem pass1_shape (dets : List Detection) (options : ClassificationSmoothingOptions)
    (other_category_ids : List String) (mc : String) (maxc : Nat) :
    (pass1 dets options other_category_ids mc maxc).1.map detShape = dets.map detShape := by
  unfold pass1
  split_ifs
  · rw [List.map_map]
    exact List.map_congr_left fun d _ => pass1Det_shape options other_category_ids mc d
  · rfl

/-- Pass 2 preserves the shapes of the whole list. -/
theorem pass2_shape (dets : List Detection) (options : ClassificationSmoothingOptions)
    (other_category_ids : List String) (t : List (String × Nat)) (mc : String)
    (maxc : Nat) :
    (pass2 dets options other_category_ids t mc maxc).1.map detShape =
      dets.map detShape := by
  unfold pass2
  split_ifs
  · rfl
  · rw [List.map_map]
    exact List.map_congr_left fun d _ => pass2Det_shape options t mc maxc d

/-- Pass 3 preserves the shapes of the whole list. -/
theorem pass3_shape (dets : List Detection) (options : ClassificationSmoothingOptions)
    (t : List (String × Nat)) (cdcl : Option (List (String × String))) :
    (pass3 dets options t cdcl).1.map detShape = dets.map detShape := by
  rcases cdcl with _ | cdc
  · rfl
  · simp only [pass3]
    split_ifs
    · rw [List.map_map]
      exact List.map_congr_left fun d _ => pass3Det_shape options t cdc d
    · rfl

/-- Claim C8: a Group Smoother run never creates or deletes a detection or
a classification entry and never modifies a detection confidence or a
classification confidence: the list length and the per-position shapes
(all `conf` values, presence and length of each `classifications` list)
are identical before and after; only category ids may change. -/
theorem smooth_frame_conditions (dets : List Detection)
    (options : ClassificationSmoothingOptions) (other_category_ids : List String)
    (cdcl : Option (List (String × String))) :
    ((_smooth_classifications_for_list_of_detections dets options
        other_category_ids cdcl).1.map detShape = dets.map detShape) ∧
    ((_smooth_classifications_for_list_of_detections dets options
        other_category_ids cdcl).1.length = dets.length) := by
  have hshape : (_smooth_classifications_for_list_of_detections dets options
      other_category_ids cdcl).1.map detShape = dets.map detShape := by
    by_cases hlen : (_count_detections_by_category dets options).length ≤ 1
    · simp only [_smooth_classifications_for_list_of_detections, if_pos hlen]
    · simp only [_smooth_classifications_for_list_of_detections, if_neg hlen]
      rw [pass3_shape, pass2_shape, pass1_shape]
  refine ⟨hshape, ?_⟩
  have := congrArg List.length hshape
  simpa using this

theorem normalize_detection_characterization :
    (∀ (dconf : ℚ), normalizeDetection ⟨dconf, none⟩ = .ok ⟨dconf, none⟩) ∧
    (∀ (dconf : ℚ), normalizeDetection ⟨dconf, some []⟩ = .ok ⟨dconf, none⟩) ∧
    (∀ (dconf : ℚ) (c : Classification) (rest : List Classification),
      is_list_sorted_reverse ((c :: rest).map Classification.conf) = true →
      normalizeDetection ⟨dconf, some (c :: rest)⟩ = .ok ⟨dconf, some [c]⟩) ∧
    (∀ (dconf : ℚ) (c : Classification) (rest : List Classification),
      is_list_sorted_reverse ((c :: rest).map Classification.conf) = false →
      normalizeDetection ⟨dconf, some (c :: rest)⟩ = .error .contractViolation) ∧
    (∀ (pre post : List Detection) (dconf : ℚ) (c : Classification)
        (rest : List Classification),
      is_list_sorted_reverse ((c :: rest).map Classification.conf) = false →
      normalizeDetections (pre ++ ⟨dconf, some (c :: rest)⟩ :: post) =
        .error .contractViolation) := by
  have herr : ∀ (post : List Detection) (dconf : ℚ) (c : Classification)
      (rest : List Classification),
      is_list_sorted_reverse ((c :: rest).map Classification.conf) = false →
      normalizeDetections (⟨dconf, some (c :: rest)⟩ :: post) =
        .error .contractViolation := by
    intro post dconf c rest hs
    simp only [List.map_cons] at hs
    simp only [normalizeDetections, normalizeDetection, List.map_cons, hs]
    rfl
  refine ⟨fun dconf => rfl, fun dconf => rfl, ?_, ?_, ?_⟩
  · intro dconf c rest hs
    simp only [List.map_cons] at hs
    simp [normalizeDetection, hs]
  · intro dconf c rest hs
    simp only [List.map_cons] at hs
    simp [normalizeDetection, hs]
  · intro pre post dconf c rest hs
    induction pre with
    | nil => exact herr post dconf c rest hs
    | cons d pre ih =>
        rw [List.cons_append]
        rcases hnd : normalizeDetection d with e | d2
        · cases e
          simp only [normalizeDetections, hnd]
          rfl
        · simp only [normalizeDetections, hnd, ih]
          rfl


/-- Witness for `normalize_detection_characterization`: a two-entry
classification list with ascending confidences is rejected. -/
theorem normalize_detection_characterization_witness :
    normalizeDetection ⟨1, some [⟨"a", 0⟩, ⟨"b", 1⟩]⟩ = .error .contractViolation :=
  normalize_detection_characterization.2.2.2.1 1 ⟨"a", 0⟩ [⟨"b", 1⟩] (by decide)

theorem pass3Det_eq (options : ClassificationSmoothingOptions)
    (t : List (String × Nat)) (cdc : List (String × String)) (dconf cconf : ℚ)
    (cat0 : String) (rest : List Classification)
    (hd : dconf ≥ options.detection_confidence_threshold)
    (hc : cconf ≥ options.classification_confidence_threshold) :
    pass3Det options t cdc ⟨dconf, some (⟨cat0, cconf⟩ :: rest)⟩ =
      (⟨dconf, some (⟨(qualifyingChildren t cdc cat0).getLastD cat0, cconf⟩ :: rest)⟩,
       (qualifyingChildren t cdc cat0).length) := by
  simp only [pass3Det, if_pos hd, if_neg (not_lt.mpr hc), pass3_fold_eq, qualifyingChildren]
  simp

/-- If pass 1 counted no change for a detection, it left it unchanged. -/
theorem pass1Det_zero (options : ClassificationSmoothingOptions)
    (other_category_ids : List String) (mc : String) (det : Detection)
    (h : (pass1Det options other_category_ids mc det).2 = 0) :
    (pass1Det options other_category_ids mc det).1 = det := by
  rcases det with ⟨dconf, cls⟩
  rcases cls with _ | (_ | ⟨c, r⟩)
  · rfl
  · rfl
  · simp only [pass1Det] at h ⊢
    split_ifs at h ⊢ <;> first | rfl | simp at h

/-- If pass 2 counted no change for a detection, it left it unchanged. -/
theorem pass2Det_zero (options : ClassificationSmoothingOptions)
    (t : List (String × Nat)) (mc : String) (maxc : Nat) (det : Detection)
    (h : (pass2Det options t mc maxc det).2 = 0) :
    (pass2Det options t mc maxc det).1 = det := by
  rcases det with ⟨dconf, cls⟩
  rcases cls with _ | (_ | ⟨c, r⟩)
  · rfl
  · rfl
  · simp only [pass2Det] at h ⊢
    split_ifs at h ⊢ <;> first | rfl | simp at h

/-- If pass 3 counted no change for a detection, it left it unchanged. -/
theorem pass3Det_zero (options : ClassificationSmoothingOptions)
    (t : List (String × Nat)) (cdc : List (String × String)) (det : Detection)
    (h : (pass3Det options t cdc det).2 = 0) :
    (pass3Det options t cdc det).1 = det := by
  rcases det with ⟨dconf, cls⟩
  rcases cls with _ | (_ | ⟨c, r⟩)
  · rfl
  · rfl
  · rcases c with ⟨cat0, cconf⟩
    by_cases hd : dconf ≥ options.detection_confidence_threshold
    · by_cases hc : cconf < options.classification_confidence_threshold
      · simp only [pass3Det, if_pos hd, if_pos hc]
      · have hmain := pass3Det_eq options t cdc dconf cconf cat0 r hd (not_lt.mp hc)
        rw [hmain] at h ⊢
        simp only at h
        rw [List.length_eq_zero] at h
        rw [h]
        rfl
    · simp only [pass3Det, if_neg hd]

/-- A counting map whose counts sum to zero changes no list element. -/
theorem map_fst_eq_self_of_sum_zero {f : Detection → Detection × Nat}
    (hz : ∀ det, (f det).2 = 0 → (f det).1 = det) (dets : List Detection)
    (h : (dets.map (fun det => (f det).2)).sum = 0) :
    dets.map (fun det => (f det).1) = dets := by
  have hall : ∀ x ∈ dets.map (fun det => (f det).2), x = 0 := List.sum_eq_zero_iff.mp h
  have hfix : ∀ det ∈ dets, (f det).1 = det := by
    intro det hmem
    exact hz det (hall _ (List.mem_map_of_mem _ hmem))
  calc dets.map (fun det => (f det).1) = dets.map id := List.map_congr_left hfix
    _ = dets := List.map_id dets

/-- A pass-1 run with change count zero returns the list unchanged. -/
theorem pass1_zero (dets : List Detection) (options : ClassificationSmoothingOptions)
    (other_category_ids : List String) (mc : String) (maxc : Nat)
    (h : (pass1 dets options other_category_ids mc maxc).2 = 0) :
    (pass1 dets options other_category_ids mc maxc).1 = dets := by
  unfold pass1 at h ⊢
  split_ifs at h ⊢
  · exact map_fst_eq_self_of_sum_zero
      (fun det => pass1Det_zero options other_category_ids mc det) dets h
  · rfl

/-- A pass-2 run with change count zero returns the list unchanged. -/
theorem pass2_zero (dets : List Detection) (options : ClassificationSmoothingOptions)
    (other_category_ids : List String) (t : List (String × Nat)) (mc : String)
    (maxc : Nat) (h : (pass2 dets options other_category_ids t mc maxc).2 = 0) :
    (pass2 dets options other_category_ids t mc maxc).1 = dets := by
  unfold pass2 at h ⊢
  split_ifs at h ⊢
  · rfl
  · exact map_fst_eq_self_of_sum_zero (fun det => pass2Det_zero options t mc maxc det) dets h

/-- A pass-3 run with change count zero returns the list unchanged. -/
theorem pass3_zero (dets : List Detection) (options : ClassificationSmoothingOptions)
    (t : List (String × Nat)) (cdcl : Option (List (String × String)))
    (h : (pass3 dets options t cdcl).2 = 0) :
    (pass3 dets options t cdcl).1 = dets := by
  rcases cdcl with _ | cdc
  · rfl
  · simp only [pass3] at h ⊢
    split_ifs at h ⊢
    · exact map_fst_eq_self_of_sum_zero (fun det => pass3Det_zero options t cdc det) dets h
    · rfl

/-- Claim C1 (amended): if a Group Smoother run returns the no-op sentinel
or a summary whose three change counts are all zero, then it left every
detection unchanged, and running it a second time returns exactly the same
result and again changes nothing.  (Unconditional idempotence fails: see
the counterexample.) -/
theorem smooth_fixed_point_when_no_changes
    (dets : List Detection) (options : ClassificationSmoothingOptions)
    (other_category_ids : List String)
    (cdcl : Option (List (String × String)))
    (h : (_smooth_classifications_for_list_of_detections dets options
            other_category_ids cdcl).2 = none ∨
         (_smooth_classifications_for_list_of_detections dets options
            other_category_ids cdcl).2 = some ⟨0, 0, 0⟩) :
    ((_smooth_classifications_for_list_of_detections dets options
        other_category_ids cdcl).1 = dets) ∧
    (_smooth_classifications_for_list_of_detections
        ((_smooth_classifications_for_list_of_detections dets options
            other_category_ids cdcl).1) options other_category_ids cdcl =
      _smooth_classifications_for_list_of_detections dets options
        other_category_ids cdcl) := by
  have hfix : (_smooth_classifications_for_list_of_detections dets options
      other_category_ids cdcl).1 = dets := by
    by_cases hlen : (_count_detections_by_category dets options).length ≤ 1
    · simp only [_smooth_classifications_for_list_of_detections, if_pos hlen]
    · rcases h with h | h
      · simp only [_smooth_classifications_for_list_of_detections, if_neg hlen] at h
        exact (Option.some_ne_none _ h).elim
      · simp only [_smooth_classifications_for_list_of_detections, if_neg hlen,
          Option.some.injEq, SmoothingSummary.mk.injEq] at h
        obtain ⟨h1, h2, h3⟩ := h
        simp only [_smooth_classifications_for_list_of_detections, if_neg hlen]
        have e1 := pass1_zero dets options other_category_ids _ _ h1
        rw [e1] at h2 h3 ⊢
        have e2 := pass2_zero dets options other_category_ids _ _ _ h2
        rw [e2] at h3 ⊢
        exact pass3_zero dets options _ cdcl h3
  exact ⟨hfix, by rw [hfix]⟩


/-- Witness for `smooth_fixed_point_when_no_changes`: the unit A, B (two
tallied categories, no pass fires) is returned unchanged and a second run
reproduces the first. -/
theorem smooth_fixed_point_when_no_changes_witness :
    ((_smooth_classifications_for_list_of_detections [constDet "A", constDet "B"]
        idemOpts ["O"] none).1 = [constDet "A", constDet "B"]) ∧
    (_smooth_classifications_for_list_of_detections
        ((_smooth_classifications_for_list_of_detections [constDet "A", constDet "B"]
            idemOpts ["O"] none).1) idemOpts ["O"] none =
      _smooth_classifications_for_list_of_detections [constDet "A", constDet "B"]
        idemOpts ["O"] none) :=
  smooth_fixed_point_when_no_changes [constDet "A", constDet "B"] idemOpts ["O"] none
    (Or.inr (by decide))

